import Mathlib

/-!
Shallow embedding of the control-plane core of the DiscordBot repository
(src/manager.py, src/botbase.py): the wire vocabulary actually produced by
the code, the Manager connection handler and registry, the worker
communication loop, the ack wait, and the process supervisor operations
(start_bot / stop_bot / kill_bot).

Strings on the wire are modelled as List Char (Python str after UTF-8
decode). The three JSON texts the repository ever sends are produced by
json.dumps on small dicts with default separators; dumps below spells
out those exact texts, and loads is the inverse parser restricted to that
vocabulary. Python json.loads accepts more, but every theorem below
applies loads only to texts on which it agrees with json.loads: the
three shapes, and non-JSON texts such as the bare word stop, which both
reject.
-/

namespace DiscordBot

/-- The three control-message shapes the repository sends: Manager.stop_bot
sends the JSON dict with sole key command set to stop; BotBase.run sends
the registration dict with status connected and the bot id; the worker
communication loop acks with the dict carrying status OK and the bot
id. -/
inductive ControlMessage where
  | stopCmd : ControlMessage
  | connected (bot_id : List Char) : ControlMessage
  | ackStatus (bot_id : List Char) : ControlMessage
deriving DecidableEq, Repr

/-- The literal two-character string OK that BotBase.communication_loop
compares an inbound message against. -/
def okChars : List Char := ['O', 'K']

/-- Wire text of the stop command as serialized and sent by
Manager.stop_bot. -/
def stopWire : List Char := "\x7b\"command\": \"stop\"\x7d".toList

/-- Prefix of the registration message text, up to the opening quote of the
bot id value. -/
def connectedPre : List Char := "\x7b\"status\": \"connected\", \"bot_id\": \"".toList

/-- Prefix of the worker-side ack message text, up to the opening quote of
the bot id value. -/
def ackPre : List Char := "\x7b\"status\": \"OK\", \"bot_id\": \"".toList

/-- Closing text after the bot id value: the quote and the brace. -/
def idSuffix : List Char := ['\x22', '\x7d']

/-- Serialization json.dumps on the three dicts the repository produces,
with Python default separators and insertion-ordered keys. -/
def dumps : ControlMessage → List Char
  | .stopCmd => stopWire
  | .connected i => connectedPre ++ i ++ idSuffix
  | .ackStatus i => ackPre ++ i ++ idSuffix

/-- Scan the characters of a bot id value up to its closing quote, which
must be immediately followed by the closing brace and the end of the
text. -/
def takeBotId : List Char → Option (List Char)
  | [] => none
  | c :: rest =>
      if c = '\x22' then
        if rest = ['\x7d'] then some [] else none
      else
        (takeBotId rest).map (fun i => c :: i)

/-- Parsing json.loads restricted to the three-message vocabulary of the
repository: accepts exactly the texts dumps produces and rejects
everything else, in particular bare words such as stop or OK, which
json.loads also rejects. -/
def loads (s : List Char) : Option ControlMessage :=
  if s = stopWire then some .stopCmd
  else if connectedPre.isPrefixOf s then
    (takeBotId (s.drop connectedPre.length)).map .connected
  else if ackPre.isPrefixOf s then
    (takeBotId (s.drop ackPre.length)).map .ackStatus
  else none

/-- The dict key carrying the sender identity, as read by
Manager.process_message. The stop command has no bot_id key. -/
def botIdOf : ControlMessage → Option (List Char)
  | .stopCmd => none
  | .connected i => some i
  | .ackStatus i => some i

/-- The framing loop of Manager.handle_connection: while the buffer
contains a newline byte, split at the first newline and process the part
before it. Returns the complete newline-terminated frames in order and
the leftover bytes kept in the buffer. -/
def extractFrames : List Char → List (List Char) × List Char
  | [] => ([], [])
  | c :: rest =>
      let r := extractFrames rest
      if c = '\n' then ([] :: r.1, r.2)
      else
        match r.1 with
        | [] => ([], c :: r.2)
        | f :: fs => ((c :: f) :: fs, r.2)

/-! ## Association lookup

Python dicts (client_sockets, the persisted process-info JSON object,
bot_processes, the Bots config section, the psutil pid table) are
modelled as association lists. -/

/-- Dictionary lookup, keyed by strings. -/
def assocLookup {β : Type} (l : List (List Char × β)) (k : List Char) : Option β :=
  match l with
  | [] => none
  | (k0, v) :: rest => if k0 = k then some v else assocLookup rest k

/-- Dictionary lookup for the pid-keyed psutil process table. -/
def pidLookup {β : Type} (l : List (Nat × β)) (k : Nat) : Option β :=
  match l with
  | [] => none
  | (k0, v) :: rest => if k0 = k then some v else pidLookup rest k

/-! ## Manager: connection handler and registry (src/manager.py 51-84) -/

/-- The error cases Manager.process_message logs. -/
inductive MgrLog where
  | conflict : MgrLog
  | missingBotId : MgrLog
  | decodeFail : MgrLog
deriving DecidableEq, Repr

/-- Model of Manager.process_message: parse the frame as JSON; on a
bot_id key, either validate the existing registry entry (logging a
conflict when it points at a different socket and leaving the registry
unchanged) or add the new mapping. Returns the updated registry, the
errors logged, and the wire texts sent back on the socket — the handler
sends nothing, so that component is always empty. Sockets are identified
by Nat handles. -/
def process_message (registry : List (List Char × Nat)) (message : List Char)
    (sock : Nat) : List (List Char × Nat) × List MgrLog × List (List Char) :=
  match loads message with
  | none => (registry, [.decodeFail], [])
  | some m =>
      match botIdOf m with
      | none => (registry, [.missingBotId], [])
      | some bid =>
          match assocLookup registry bid with
          | some s0 =>
              if s0 = sock then (registry, [], [])
              else (registry, [.conflict], [])
          | none => ((bid, sock) :: registry, [], [])

/-- One recv worth of data arriving in Manager.handle_connection: append
to the buffer, split out every complete newline-terminated frame, and run
process_message on each frame in order. Returns the updated registry, the
leftover buffer, the logs, and all wire texts sent back. -/
def handle_data (registry : List (List Char × Nat)) (buffer : List Char)
    (data : List Char) (sock : Nat) :
    List (List Char × Nat) × List Char × List MgrLog × List (List Char) :=
  let r := extractFrames (buffer ++ data)
  let step := fun (acc : List (List Char × Nat) × List MgrLog × List (List Char))
      (frame : List Char) =>
    let p := process_message acc.1 frame sock
    (p.1, acc.2.1 ++ p.2.1, acc.2.2 ++ p.2.2)
  let out := r.1.foldl step (registry, [], [])
  (out.1, r.2, out.2.1, out.2.2)

/-- The decode pipeline of the Manager on inbound bytes: the frames the
newline splitter extracts, each parsed as JSON. -/
def manager_decode (buf : List Char) : List ControlMessage :=
  (extractFrames buf).1.filterMap loads

/-! ## Worker: communication loop and ack wait (src/botbase.py 54-102) -/

/-- The mutable state of BotBase touched by the communication loop:
whether the loop is still running (an exception in the body breaks it),
the waiting_for_ack flag, and the command queue. The queue stores the
parse of each accepted message. -/
structure WorkerCommState where
  running : Bool
  waiting_for_ack : Bool
  message_queue : List ControlMessage
deriving DecidableEq, Repr

/-- One iteration of BotBase.communication_loop handling one received
text: a non-empty text other than OK is acked (one send of the status-OK
dict) and then parsed onto the queue — when the parse raises, the ack has
already gone out, nothing is enqueued, and the exception breaks the loop;
the exact text OK clears waiting_for_ack and notifies; an empty text does
nothing. Returns the new state and the wire texts sent. -/
def comm_step (bot_id : List Char) (st : WorkerCommState) (message : List Char) :
    WorkerCommState × List (List Char) :=
  if st.running = false then (st, [])
  else if message ≠ [] ∧ message ≠ okChars then
    match loads message with
    | some m =>
        ({ st with message_queue := st.message_queue ++ [m] },
         [dumps (.ackStatus bot_id)])
    | none =>
        ({ st with running := false }, [dumps (.ackStatus bot_id)])
  else if message = okChars then
    ({ st with waiting_for_ack := false }, [])
  else (st, [])

/-- Run the communication loop over a list of received texts in order. -/
def comm_run (bot_id : List Char) (st : WorkerCommState) :
    List (List Char) → WorkerCommState
  | [] => st
  | m :: ms => comm_run bot_id (comm_step bot_id st m).1 ms

/-- The default value of the timeout parameter of BotBase.wait_for_ack,
namely None. -/
def wait_for_ack_default_timeout : Option Nat := none

/-- The wait loop of BotBase.wait_for_ack — while waiting_for_ack, wait on
the condition — viewed at its wakeup points: after n wakeups the caller is
still blocked exactly when no iteration so far saw the flag cleared by an
ack (ackAt k says an ack was processed before wakeup k). The loop
re-enters the wait whenever the flag is still set, for any value of the
timeout argument. -/
def wait_still_blocked (ackAt : Nat → Bool) : Nat → Bool
  | 0 => true
  | n + 1 => wait_still_blocked ackAt n && !ackAt n

/-! ## Worker: control-client lifecycle (src/botbase.py 54-77, 115-138)

BotBase.run dials the Manager once; on success the communication thread
starts and the worker registers. Any exception in the loop body executes
a break, after which the thread logs that it is stopping and exits; no
code path creates a new socket or thread afterwards. -/

/-- Lifecycle phase of the worker control connection after
registration. -/
inductive ClientPhase where
  | registered : ClientPhase
  | commStopped : ClientPhase
deriving DecidableEq, Repr

/-- Events the communication thread can observe: a received text, a
channel error (exception in the loop body), or a one-second select
timeout tick. -/
inductive ClientEvent where
  | recvMsg (m : List Char) : ClientEvent
  | channelError : ClientEvent
  | tick : ClientEvent
deriving DecidableEq, Repr

/-- One observable step of the communication thread: an error breaks the
loop; once the loop has exited nothing reacts to events. The boolean
records whether the step dialled a new connection to the Manager — no
transition does, as create_socket is called only once in run. -/
def client_step : ClientPhase → ClientEvent → ClientPhase × Bool
  | .registered, .channelError => (.commStopped, false)
  | .registered, _ => (.registered, false)
  | .commStopped, _ => (.commStopped, false)

/-- Run the lifecycle over an event list, counting dial attempts. -/
def client_run : ClientPhase → List ClientEvent → ClientPhase × Nat
  | p, [] => (p, 0)
  | p, e :: es =>
      let s := client_step p e
      let r := client_run s.1 es
      (r.1, (if s.2 then 1 else 0) + r.2)

/-! ## Manager: process supervisor (src/manager.py 262-345) -/

/-- One entry of the persisted bot_process_info table: pid, launch
command, timestamp. -/
structure ProcRecord where
  pid : Nat
  command : List Char
  timestamp : Nat
deriving DecidableEq, Repr

/-- What psutil reports about a live OS process: its space-joined command
line and whether its status is zombie. -/
structure OsProc where
  cmdline : List Char
  zombie : Bool
deriving DecidableEq, Repr

/-- The Manager state read and written by the supervisor operations:
client_sockets (registry), bot_processes (in-memory Popen handles, stored
as their poll result — none means still running), bot_config (the Bots
section, reduced to each bot type), pythonpath (from the Manager config
section), the persisted process_info table, and the OS pid table queried
through psutil. -/
structure ManagerState where
  client_sockets : List (List Char × Nat)
  bot_processes : List (List Char × Option Nat)
  bot_config : List (List Char × List Char)
  pythonpath : List Char
  process_info : List (List Char × ProcRecord)
  os_procs : List (Nat × OsProc)
deriving DecidableEq, Repr

/-- The space-joined launch command string recorded by start_bot: the
python path, the bot type with a .py suffix, the bot_id flag, and the
id. -/
def mkCommand (pythonpath ty bid : List Char) : List Char :=
  pythonpath ++ (' ' :: (ty ++ ".py --bot_id ".toList ++ bid))

/-- Side effects of the supervisor operations on sockets and
processes. -/
inductive SupAction where
  | sentStop (sock : Nat) : SupAction
  | terminated (pid : Nat) : SupAction
deriving DecidableEq, Repr

/-- Whether a supervisor action is a process termination. -/
def isKillAction : SupAction → Bool
  | .terminated _ => true
  | .sentStop _ => false

/-- How Manager.start_bot returned. -/
inductive StartOutcome where
  | noConfig : StartOutcome
  | alreadyRunningMem : StartOutcome
  | alreadyRunningPid (pid : Nat) : StartOutcome
  | started : StartOutcome
deriving DecidableEq, Repr

/-- Model of Manager.start_bot: refuse when there is no config for the
bot; refuse when the in-memory handle exists and poll returns None;
otherwise consult the persisted record — when its pid is nonzero, exists,
and is not a zombie, log already-running and refuse (a zombie is
terminated first instead). Otherwise launch the command (the fresh pid is
the parameter newPid), store the handle, and rewrite the persisted table
with the new record. No branch compares the live process command line
against the record. -/
def start_bot (st : ManagerState) (bid : List Char) (newPid : Nat) (now : Nat) :
    ManagerState × List SupAction × StartOutcome :=
  match assocLookup st.bot_config bid with
  | none => (st, [], .noConfig)
  | some ty =>
      if assocLookup st.bot_processes bid = some none then
        (st, [], .alreadyRunningMem)
      else
        let command := mkCommand st.pythonpath ty bid
        let launch : List SupAction → ManagerState × List SupAction × StartOutcome :=
          fun pre =>
            ({ st with
                bot_processes := (bid, (none : Option Nat)) :: st.bot_processes,
                process_info :=
                  (bid, ⟨newPid, command, now⟩) :: st.process_info },
             pre, .started)
        match assocLookup st.process_info bid with
        | none => launch []
        | some r =>
            if r.pid ≠ 0 then
              match pidLookup st.os_procs r.pid with
              | some p =>
                  if p.zombie = false then (st, [], .alreadyRunningPid r.pid)
                  else launch [.terminated r.pid]
              | none => launch []
            else launch []

/-- Model of Manager.stop_bot: when a socket is registered for the bot,
send the stop command on it; otherwise do nothing. Takes no timeout,
polls nothing, never terminates a process, and never touches the
persisted table. -/
def stop_bot (st : ManagerState) (bid : List Char) :
    ManagerState × List SupAction :=
  match assocLookup st.client_sockets bid with
  | some sock => (st, [.sentStop sock])
  | none => (st, [])

/-- The error cases Manager.kill_bot logs. -/
inductive KillLog where
  | killed : KillLog
  | pidMismatch : KillLog
  | notRunning : KillLog
  | noInfo : KillLog
deriving DecidableEq, Repr

/-- Model of Manager.kill_bot: read the persisted record; when its pid
exists and the live command line equals the recorded command, terminate
the process, otherwise log the mismatch. The persisted table is read but
never rewritten. -/
def kill_bot (st : ManagerState) (bid : List Char) :
    ManagerState × List SupAction × KillLog :=
  match assocLookup st.process_info bid with
  | none => (st, [], .noInfo)
  | some r =>
      if r.pid ≠ 0 ∧ r.command ≠ [] then
        match pidLookup st.os_procs r.pid with
        | some p =>
            if p.cmdline = r.command then (st, [.terminated r.pid], .killed)
            else (st, [], .pidMismatch)
        | none => (st, [], .notRunning)
      else (st, [], .noInfo)

/-! ## Validity predicates and concrete fixtures -/

/-- A bot id that serializes cleanly: no quote character (so the JSON text
closes where the parser expects) and no newline (so framing is a
one-frame question). Ids in the repository config are plain words. -/
def cleanId (i : List Char) : Prop := '\x22' ∉ i ∧ '\n' ∉ i

/-- Validity of a control message: its bot id, when present, is clean. -/
def validMsg : ControlMessage → Prop
  | .stopCmd => True
  | .connected i => cleanId i
  | .ackStatus i => cleanId i

instance : DecidablePred cleanId := fun i => by
  unfold cleanId; infer_instance

instance : DecidablePred validMsg := fun m => by
  cases m <;> (unfold validMsg; infer_instance)

/-- The recorded launch command of the fixture worker w1 of type
testbot. -/
def sampleCommand : List Char := mkCommand "python".toList "testbot".toList ['w', '1']

/-- Fixture: worker w1 registered on socket 7, persisted record with pid
42, and pid 42 alive under the recorded command line (a worker that
ignores the stop command). -/
def cSt5 : ManagerState :=
  { client_sockets := [(['w', '1'], 7)]
    bot_processes := []
    bot_config := [(['w', '1'], "testbot".toList)]
    pythonpath := "python".toList
    process_info := [(['w', '1'], ⟨42, sampleCommand, 100⟩)]
    os_procs := [(42, ⟨sampleCommand, false⟩)] }

/-- Fixture: fresh Manager (no in-memory handle) with a persisted record
whose pid 42 is alive but now belongs to an unrelated process — the
command line does not match the record. -/
def cSt7 : ManagerState :=
  { client_sockets := []
    bot_processes := []
    bot_config := [(['w', '1'], "testbot".toList)]
    pythonpath := "python".toList
    process_info := [(['w', '1'], ⟨42, sampleCommand, 100⟩)]
    os_procs := [(42, ⟨"unrelated".toList, false⟩)] }

/-- Fixture: cSt7 with an in-memory handle whose poll result is None, the
state right after a first successful start. -/
def cSt7b : ManagerState :=
  { cSt7 with bot_processes := [(['w', '1'], none)] }

/-- Fixture: a Manager with nothing registered, nothing launched. -/
def emptyState : ManagerState :=
  { client_sockets := []
    bot_processes := []
    bot_config := []
    pythonpath := []
    process_info := []
    os_procs := [] }

/-! ## Helper lemmas -/

/-- Scanning a clean id followed by the closing quote and brace returns
the id. -/
theorem takeBotId_append {i : List Char} (h : '\x22' ∉ i) :
    takeBotId (i ++ idSuffix) = some i := by
  induction i with
  | nil => decide
  | cons c rest ih =>
      have hc : c ≠ '\x22' := fun hc => h (hc ▸ List.mem_cons_self c rest)
      have hrest : '\x22' ∉ rest := fun hx => h (List.mem_cons_of_mem _ hx)
      simp [takeBotId, hc, ih hrest]

/-- A registration text is never the stop text: the lengths differ. -/
theorem connected_ne_stopWire (i : List Char) :
    connectedPre ++ (i ++ idSuffix) ≠ stopWire := by
  intro h
  have hl : (connectedPre ++ (i ++ idSuffix)).length = stopWire.length := by rw [h]
  rw [List.length_append, List.length_append] at hl
  have h1 : connectedPre.length = 35 := by decide
  have h2 : idSuffix.length = 2 := by decide
  have h3 : stopWire.length = 19 := by decide
  omega

/-- An ack text is never the stop text: the lengths differ. -/
theorem ack_ne_stopWire (i : List Char) :
    ackPre ++ (i ++ idSuffix) ≠ stopWire := by
  intro h
  have hl : (ackPre ++ (i ++ idSuffix)).length = stopWire.length := by rw [h]
  rw [List.length_append, List.length_append] at hl
  have h1 : ackPre.length = 28 := by decide
  have h2 : idSuffix.length = 2 := by decide
  have h3 : stopWire.length = 19 := by decide
  omega

/-- The registration prefix never heads an ack text: the two prefixes
disagree at index 12. -/
theorem connectedPre_ne_ackPre_append (t s : List Char) :
    connectedPre ++ t ≠ ackPre ++ s := by
  intro h
  have h12 : (connectedPre ++ t)[12]? = (ackPre ++ s)[12]? := by rw [h]
  rw [List.getElem?_append, List.getElem?_append,
    if_pos (show 12 < connectedPre.length by decide),
    if_pos (show 12 < ackPre.length by decide)] at h12
  revert h12
  decide

/-- Round trip of the JSON layer: parsing the serialization of a valid
message returns the message. -/
theorem loads_dumps {m : ControlMessage} (hm : validMsg m) :
    loads (dumps m) = some m := by
  cases m with
  | stopCmd => decide
  | connected i =>
      obtain ⟨hq, -⟩ := hm
      have hd : dumps (.connected i) = connectedPre ++ (i ++ idSuffix) := by
        simp [dumps, List.append_assoc]
      rw [loads, hd]
      rw [if_neg (connected_ne_stopWire i)]
      rw [if_pos (List.isPrefixOf_iff_prefix.mpr (List.prefix_append _ _))]
      rw [List.drop_left, takeBotId_append hq]
      rfl
  | ackStatus i =>
      obtain ⟨hq, -⟩ := hm
      have hd : dumps (.ackStatus i) = ackPre ++ (i ++ idSuffix) := by
        simp [dumps, List.append_assoc]
      rw [loads, hd]
      rw [if_neg (ack_ne_stopWire i)]
      rw [if_neg ?hpre]
      case hpre =>
        intro hp
        obtain ⟨t, ht⟩ := List.isPrefixOf_iff_prefix.mp hp
        exact connectedPre_ne_ackPre_append t (i ++ idSuffix) ht
      rw [if_pos (List.isPrefixOf_iff_prefix.mpr (List.prefix_append _ _))]
      rw [List.drop_left, takeBotId_append hq]
      rfl

/-- A buffer without a newline yields no frame and stays buffered. -/
theorem extractFrames_no_newline {buf : List Char} (h : '\n' ∉ buf) :
    extractFrames buf = ([], buf) := by
  induction buf with
  | nil => rfl
  | cons c rest ih =>
      have hc : c ≠ '\n' := fun hc => h (hc ▸ List.mem_cons_self c rest)
      have hrest : '\n' ∉ rest := fun hx => h (List.mem_cons_of_mem _ hx)
      simp [extractFrames, hc, ih hrest]

/-- Appending the newline delimiter to a newline-free buffer yields
exactly that buffer as the single frame. -/
theorem extractFrames_append_newline {buf : List Char} (h : '\n' ∉ buf) :
    extractFrames (buf ++ ['\n']) = ([buf], []) := by
  induction buf with
  | nil => rfl
  | cons c rest ih =>
      have hc : c ≠ '\n' := fun hc => h (hc ▸ List.mem_cons_self c rest)
      have hrest : '\n' ∉ rest := fun hx => h (List.mem_cons_of_mem _ hx)
      simp [extractFrames, hc, ih hrest]

/-- The serialization of a valid message contains no newline byte. -/
theorem newline_not_mem_dumps {m : ControlMessage} (hm : validMsg m) :
    '\n' ∉ dumps m := by
  cases m with
  | stopCmd => decide
  | connected i =>
      obtain ⟨-, hn⟩ := hm
      intro hmem
      simp only [dumps, List.append_assoc, List.mem_append] at hmem
      rcases hmem with h1 | h2 | h3
      · exact absurd h1 (by decide)
      · exact hn h2
      · exact absurd h3 (by decide)
  | ackStatus i =>
      obtain ⟨-, hn⟩ := hm
      intro hmem
      simp only [dumps, List.append_assoc, List.mem_append] at hmem
      rcases hmem with h1 | h2 | h3
      · exact absurd h1 (by decide)
      · exact hn h2
      · exact absurd h3 (by decide)

/-- The Manager connection handler sends nothing back, on any message. -/
theorem process_message_sends_nil (reg : List (List Char × Nat))
    (msg : List Char) (sock : Nat) :
    (process_message reg msg sock).2.2 = [] := by
  unfold process_message
  split
  · rfl
  · split
    · rfl
    · split
      · split <;> rfl
      · rfl

/-- A key that lookup misses is not among the keys. -/
theorem assocLookup_none_not_mem {β : Type} {l : List (List Char × β)}
    {k : List Char} (h : assocLookup l k = none) : k ∉ l.map Prod.fst := by
  induction l with
  | nil => simp
  | cons p rest ih =>
      obtain ⟨k0, v⟩ := p
      by_cases hk : k0 = k
      · rw [assocLookup, if_pos hk] at h
        exact absurd h (by simp)
      · rw [assocLookup, if_neg hk] at h
        intro hmem
        rcases List.mem_cons.mp hmem with h1 | h2
        · exact hk (by simpa using h1.symm)
        · exact ih h h2

/-- The communication loop clears the waiting flag only on the exact text
OK. -/
theorem comm_step_waiting {bid : List Char} {st : WorkerCommState}
    {msg : List Char} (h : msg ≠ okChars) :
    ((comm_step bid st msg).1).waiting_for_ack = st.waiting_for_ack := by
  unfold comm_step
  by_cases hr : st.running = false
  · simp [hr]
  · by_cases h1 : msg ≠ [] ∧ msg ≠ okChars
    · simp only [hr, if_false, if_pos h1]
      cases hl : loads msg <;> simp
    · have hmsg : msg = [] := by
        by_contra hne
        exact h1 ⟨hne, h⟩
      simp [hr, h1, hmsg, show ([] : List Char) ≠ okChars from by decide]

/-- Processing any number of texts other than OK leaves the waiting flag
untouched. -/
theorem comm_run_waiting {bid : List Char} {st : WorkerCommState}
    {msgs : List (List Char)} (h : okChars ∉ msgs) :
    (comm_run bid st msgs).waiting_for_ack = st.waiting_for_ack := by
  induction msgs generalizing st with
  | nil => rfl
  | cons m ms ih =>
      have hm : m ≠ okChars := fun he => h (he ▸ List.mem_cons_self m ms)
      have hms : okChars ∉ ms := fun hx => h (List.mem_cons_of_mem _ hx)
      rw [comm_run, ih hms, comm_step_waiting hm]

/-! ## Claim theorems -/

/-- C1 (counterexample): the Manager sends back zero acks — not exactly
one — for the registration message a worker sends: the raw registration
bytes produce no frame in the handler (no newline delimiter), and even
process_message applied to the registration text directly sends nothing. -/
theorem C1_counterexample :
    (handle_data [] [] (dumps (.connected ['w', '1'])) 7).1 = [] ∧
    (handle_data [] [] (dumps (.connected ['w', '1'])) 7).2.2.2 = [] ∧
    (process_message [] (dumps (.connected ['w', '1'])) 7).2.2 = [] := by
  decide

/-- C1 (amended): each non-empty message other than OK received by the
worker communication loop triggers exactly one transport-level ack from
the worker, sent before any processing; the Manager, by contrast, never
sends any ack for messages it receives from workers. -/
theorem C1_worker_acks_once_manager_never (bid : List Char)
    (st : WorkerCommState) (msg : List Char) (reg : List (List Char × Nat))
    (sock : Nat) (hrun : st.running = true) (h1 : msg ≠ []) (h2 : msg ≠ okChars) :
    (comm_step bid st msg).2 = [dumps (.ackStatus bid)] ∧
    (process_message reg msg sock).2.2 = [] := by
  refine ⟨?_, process_message_sends_nil reg msg sock⟩
  unfold comm_step
  rw [if_neg (by simp [hrun]), if_pos ⟨h1, h2⟩]
  cases loads msg <;> rfl

/-- C1 (witness): the amended theorem at the stop command received by
worker w1 and at an empty Manager registry. -/
theorem C1_witness :
    (comm_step ['w', '1'] ⟨true, false, []⟩ stopWire).2 =
      [dumps (.ackStatus ['w', '1'])] ∧
    (process_message [] stopWire 7).2.2 = [] :=
  C1_worker_acks_once_manager_never ['w', '1'] ⟨true, false, []⟩ stopWire [] 7
    (by decide) (by decide) (by decide)

/-- C2 (counterexample): the default ack timeout is None, not 5 seconds,
and after ten received messages (none an ack) the sender is still
blocked, as is the wait loop after ten wakeups — past any 5-second
bound. -/
theorem C2_counterexample :
    wait_for_ack_default_timeout ≠ some 5 ∧
    (comm_run ['w', '1'] ⟨true, true, []⟩
      (List.replicate 10 stopWire)).waiting_for_ack = true ∧
    wait_still_blocked (fun _ => false) 10 = true := by
  decide

/-- C2 (amended): the timeout parameter of wait_for_ack defaults to None
and the loop re-enters the wait while the flag is set, so a sender blocks
indefinitely when the peer never acks: no number of wait wakeups without
an ack unblocks it, no amount of non-ack traffic clears the flag, and no
AckTimeout error exists or is returned. -/
theorem C2_blocks_indefinitely :
    wait_for_ack_default_timeout = none ∧
    (∀ ackAt : Nat → Bool, ∀ n : Nat, (∀ k, k < n → ackAt k = false) →
      wait_still_blocked ackAt n = true) ∧
    (∀ bid : List Char, ∀ st : WorkerCommState, ∀ msgs : List (List Char),
      okChars ∉ msgs →
      (comm_run bid st msgs).waiting_for_ack = st.waiting_for_ack) := by
  refine ⟨rfl, ?_, fun bid st msgs h => comm_run_waiting h⟩
  intro ackAt n h
  induction n with
  | zero => rfl
  | succ k ih =>
      rw [wait_still_blocked, ih fun j hj => h j (Nat.lt_succ_of_lt hj),
        h k (Nat.lt_succ_self k)]
      rfl

/-- C2 (witness): the amended theorem at seven ackless wakeups and at a
two-message ackless trace. -/
theorem C2_witness :
    wait_still_blocked (fun _ => false) 7 = true ∧
    (comm_run ['w', '1'] ⟨true, true, []⟩
      [stopWire, stopWire]).waiting_for_ack = true :=
  ⟨C2_blocks_indefinitely.2.1 (fun _ => false) 7 fun _ _ => rfl,
   C2_blocks_indefinitely.2.2 ['w', '1'] ⟨true, true, []⟩ [stopWire, stopWire]
     (by decide)⟩

/-- C3 (counterexample): a registration message followed by a newline IS
decoded and registered by the Manager handler, while the same bytes
without the newline produce nothing — messages are delimited by newline
splitting, not by a 4-byte big-endian length header. -/
theorem C3_counterexample :
    (handle_data [] [] (dumps (.connected ['w', '1']) ++ ['\n']) 7).1 =
      [(['w', '1'], 7)] ∧
    (handle_data [] [] (dumps (.connected ['w', '1'])) 7).1 = [] := by
  decide

/-- C3 (amended): control messages are sent as raw UTF-8 JSON with no
length header; the Manager delimits inbound frames by splitting on
newline bytes (a newline-free buffer yields no frame and a trailing
newline yields exactly one), and the worker treats the sentinel string OK
as an ack (flag cleared, nothing sent). -/
theorem C3_actual_framing (buf : List Char) (st : WorkerCommState)
    (bid : List Char) (hn : '\n' ∉ buf) (hr : st.running = true) :
    extractFrames buf = ([], buf) ∧
    extractFrames (buf ++ ['\n']) = ([buf], []) ∧
    (comm_step bid st okChars).1.waiting_for_ack = false ∧
    (comm_step bid st okChars).2 = [] := by
  have hstep : comm_step bid st okChars =
      ({ st with waiting_for_ack := false }, []) := by
    unfold comm_step
    rw [if_neg (by simp [hr]), if_neg (by decide), if_pos rfl]
  exact ⟨extractFrames_no_newline hn, extractFrames_append_newline hn,
    by rw [hstep], by rw [hstep]⟩

/-- C3 (witness): the amended theorem at the stop-command bytes and a
running worker. -/
theorem C3_witness :
    extractFrames stopWire = ([], stopWire) ∧
    extractFrames (stopWire ++ ['\n']) = ([stopWire], []) ∧
    (comm_step ['w', '1'] ⟨true, true, []⟩ okChars).1.waiting_for_ack = false ∧
    (comm_step ['w', '1'] ⟨true, true, []⟩ okChars).2 = [] :=
  C3_actual_framing stopWire ⟨true, true, []⟩ ['w', '1'] (by decide) (by decide)

/-- C4 (counterexample): after a channel error while registered, six
seconds of ticks (beyond the claimed 5-second retry interval) leave the
client with its communication thread stopped and zero reconnection
dials. -/
theorem C4_counterexample :
    client_run .registered (.channelError :: List.replicate 6 .tick) =
      (.commStopped, 0) := by
  decide

/-- C4 (amended): a channel error while registered breaks the
communication loop and stops the thread; from that state no event
sequence ever dials the Manager again or re-registers — the code has no
reconnection path. -/
theorem C4_no_reconnect (evs : List ClientEvent) :
    client_step .registered .channelError = (.commStopped, false) ∧
    client_run .commStopped evs = (.commStopped, 0) := by
  refine ⟨rfl, ?_⟩
  induction evs with
  | nil => rfl
  | cons e es ih =>
      rw [client_run]
      cases e <;> simp [client_step, ih]

/-- C5 (counterexample): stopping fixture worker w1, whose process
ignores the stop command and stays alive, only sends the stop message on
socket 7: the call returns with no kill action ever issued and with the
persisted ProcessRecord for w1 still present. -/
theorem C5_counterexample :
    stop_bot cSt5 ['w', '1'] = (cSt5, [SupAction.sentStop 7]) ∧
    assocLookup (stop_bot cSt5 ['w', '1']).1.process_info ['w', '1'] =
      some ⟨42, sampleCommand, 100⟩ := by
  decide

/-- C5 (amended): stop_bot takes no timeout and only sends the stop
command when a socket is registered, never escalating to a kill and never
changing the Manager state; even kill_bot, the separate forced-kill
operation, leaves the state — including the persisted ProcessRecord
table — unchanged. -/
theorem C5_stop_only_sends (st : ManagerState) (bid : List Char) :
    (stop_bot st bid).1 = st ∧
    ((stop_bot st bid).2.all fun a => !isKillAction a) = true ∧
    (kill_bot st bid).1 = st := by
  refine ⟨?_, ?_, ?_⟩
  · unfold stop_bot; cases assocLookup st.client_sockets bid <;> rfl
  · unfold stop_bot; cases assocLookup st.client_sockets bid <;> rfl
  · unfold kill_bot
    split
    · rfl
    · split
      · split
        · split <;> rfl
        · rfl
      · rfl

/-- C6: the registry keeps at most one connection per identity — key
uniqueness of the mapping is preserved by every processed message — and a
registration carrying a bot_id already registered to a different socket
is rejected: the conflict is logged and the registry is left completely
unchanged. -/
theorem C6_registration_invariant :
    (∀ reg : List (List Char × Nat), ∀ msg : List Char, ∀ sock : Nat,
      (reg.map Prod.fst).Nodup →
      (((process_message reg msg sock).1).map Prod.fst).Nodup) ∧
    (∀ reg : List (List Char × Nat), ∀ msg : List Char, ∀ sock : Nat,
      ∀ m : ControlMessage, ∀ bid : List Char, ∀ s0 : Nat,
      loads msg = some m → botIdOf m = some bid →
      assocLookup reg bid = some s0 → s0 ≠ sock →
      (process_message reg msg sock).1 = reg ∧
      (process_message reg msg sock).2.1 = [MgrLog.conflict]) := by
  constructor
  · intro reg msg sock hnd
    unfold process_message
    split
    · exact hnd
    · split
      · exact hnd
      · split
        · split
          · exact hnd
          · exact hnd
        · rename_i ha
          rw [List.map_cons]
          exact List.nodup_cons.mpr ⟨assocLookup_none_not_mem ha, hnd⟩
  · intro reg msg sock m bid s0 hl hb ha hne
    unfold process_message
    simp only [hl, hb, ha]
    rw [if_neg hne]
    exact ⟨rfl, rfl⟩

/-- C6 (witness): a second registration of w1 from socket 7 while w1 is
registered to socket 5 leaves the one-entry registry unchanged, keeps its
keys unique, and logs the conflict. -/
theorem C6_witness :
    (((process_message [(['w', '1'], 5)] (dumps (.connected ['w', '1'])) 7).1).map
        Prod.fst).Nodup ∧
    (process_message [(['w', '1'], 5)] (dumps (.connected ['w', '1'])) 7).1 =
      [(['w', '1'], 5)] ∧
    (process_message [(['w', '1'], 5)] (dumps (.connected ['w', '1'])) 7).2.1 =
      [MgrLog.conflict] :=
  ⟨C6_registration_invariant.1 [(['w', '1'], 5)] (dumps (.connected ['w', '1'])) 7
      (by decide),
   (C6_registration_invariant.2 [(['w', '1'], 5)] (dumps (.connected ['w', '1'])) 7
      (.connected ['w', '1']) ['w', '1'] 5 (by decide) (by decide) (by decide)
      (by decide)).1,
   (C6_registration_invariant.2 [(['w', '1'], 5)] (dumps (.connected ['w', '1'])) 7
      (.connected ['w', '1']) ['w', '1'] 5 (by decide) (by decide) (by decide)
      (by decide)).2⟩

/-- C7 (counterexample): on fixture cSt7 the persisted pid 42 is alive
but belongs to a process whose command line differs from the recorded
launch command; start_bot still refuses with already-running — the
refusal does not require a matching command line. -/
theorem C7_counterexample :
    start_bot cSt7 ['w', '1'] 99 200 = (cSt7, [], .alreadyRunningPid 42) ∧
    (pidLookup cSt7.os_procs 42).map OsProc.cmdline ≠
      (assocLookup cSt7.process_info ['w', '1']).map ProcRecord.command := by
  decide

/-- C7 (amended): a second start is refused when the in-memory handle
reports the process still running, or when the persisted record has a
nonzero pid that exists and is not a zombie — the live command line is
never compared against the record; on a refused call the Manager state is
unchanged (no process launched, no record written) and no termination is
issued. -/
theorem C7_refusal_without_cmdline_check (st : ManagerState) (bid : List Char)
    (newPid now : Nat) (ty : List Char) (r : ProcRecord) (p : OsProc)
    (hty : assocLookup st.bot_config bid = some ty) :
    (assocLookup st.bot_processes bid = some none →
      start_bot st bid newPid now = (st, [], .alreadyRunningMem)) ∧
    (assocLookup st.bot_processes bid ≠ some none →
      assocLookup st.process_info bid = some r →
      r.pid ≠ 0 →
      pidLookup st.os_procs r.pid = some p →
      p.zombie = false →
      start_bot st bid newPid now = (st, [], .alreadyRunningPid r.pid)) := by
  constructor
  · intro hmem
    simp [start_bot, hty, hmem]
  · intro hmem hinfo hpid hos hz
    simp [start_bot, hty, hmem, hinfo, hpid, hos, hz]

/-- C7 (witness): the amended theorem at fixture cSt7b (in-memory handle
still running) and at fixture cSt7 (persisted pid alive under a foreign
command line). -/
theorem C7_witness :
    start_bot cSt7b ['w', '1'] 99 200 = (cSt7b, [], .alreadyRunningMem) ∧
    start_bot cSt7 ['w', '1'] 99 200 = (cSt7, [], .alreadyRunningPid 42) :=
  ⟨(C7_refusal_without_cmdline_check cSt7b ['w', '1'] 99 200 "testbot".toList
      ⟨42, sampleCommand, 100⟩ ⟨"unrelated".toList, false⟩ (by decide)).1
      (by decide),
   (C7_refusal_without_cmdline_check cSt7 ['w', '1'] 99 200 "testbot".toList
      ⟨42, sampleCommand, 100⟩ ⟨"unrelated".toList, false⟩ (by decide)).2
      (by decide) (by decide) (by decide) (by decide) (by decide)⟩

/-- C8 (counterexample): stopping a bot with no registered connection on
an empty Manager does nothing at all: no send, no state change, and the
operation has no error result to report — not a NotConnected error. -/
theorem C8_counterexample :
    stop_bot emptyState ['w', '1'] = (emptyState, []) := by
  decide

/-- C8 (amended): sending the stop command to a bot_id with no live
socket silently does nothing: stop_bot checks membership in
client_sockets and otherwise returns without sending anything, reporting
nothing to the caller. -/
theorem C8_unconnected_silent (st : ManagerState) (bid : List Char)
    (h : assocLookup st.client_sockets bid = none) :
    stop_bot st bid = (st, []) := by
  unfold stop_bot
  rw [h]

/-- C8 (witness): the amended theorem at an empty Manager and worker
w2. -/
theorem C8_witness :
    stop_bot emptyState ['w', '2'] = (emptyState, []) :=
  C8_unconnected_silent emptyState ['w', '2'] (by decide)

/-- C9 (counterexample): decoding the encoded wire form of the
registration message of w1 through the Manager pipeline yields no message
at all — the worker appends no newline, so the newline-splitting decoder
never completes a frame — hence not the original message. -/
theorem C9_counterexample :
    manager_decode (dumps (.connected ['w', '1'])) = [] ∧
    manager_decode (dumps (.connected ['w', '1'])) ≠
      [ControlMessage.connected ['w', '1']] := by
  decide

/-- C9 (amended): the JSON layer round-trips — parsing the serialization
of any valid control message returns the message — but the wire round
trip worker-to-Manager fails: the Manager decode pipeline yields nothing
on the bare encoded bytes and recovers the message only when the newline
delimiter it splits on is appended. -/
theorem C9_round_trip (m : ControlMessage) (hm : validMsg m) :
    loads (dumps m) = some m ∧
    manager_decode (dumps m) = [] ∧
    manager_decode (dumps m ++ ['\n']) = [m] := by
  refine ⟨loads_dumps hm, ?_, ?_⟩
  · unfold manager_decode
    rw [extractFrames_no_newline (newline_not_mem_dumps hm)]
    rfl
  · unfold manager_decode
    rw [extractFrames_append_newline (newline_not_mem_dumps hm)]
    simp [loads_dumps hm]

/-- C9 (witness): the amended theorem at the registration message of
w1. -/
theorem C9_witness :
    loads (dumps (.connected ['w', '1'])) = some (.connected ['w', '1']) ∧
    manager_decode (dumps (.connected ['w', '1'])) = [] ∧
    manager_decode (dumps (.connected ['w', '1']) ++ ['\n']) =
      [ControlMessage.connected ['w', '1']] :=
  C9_round_trip (.connected ['w', '1']) (by decide)

/-- C10 (counterexample): the non-empty text stop — not equal to OK and
not valid JSON — is acked but never enqueued, and the decode failure
stops the communication loop: the claim that every non-empty non-OK
message reaches the command queue is false. -/
theorem C10_counterexample :
    comm_step ['w', '1'] ⟨true, true, []⟩ "stop".toList =
      (⟨false, true, []⟩, [dumps (.ackStatus ['w', '1'])]) := by
  decide

/-- C10 (amended): a message equal to OK is consumed as an ack — flag
cleared, nothing sent, nothing enqueued; a non-empty message other than
OK never clears the flag, is acked exactly once, and is enqueued exactly
when it parses as JSON — on a parse failure it is acked but not enqueued
and the loop stops. -/
theorem C10_ok_sentinel (bid : List Char) (st : WorkerCommState)
    (msg : List Char) (hr : st.running = true) :
    ((comm_step bid st okChars).1.waiting_for_ack = false ∧
     (comm_step bid st okChars).1.message_queue = st.message_queue ∧
     (comm_step bid st okChars).2 = []) ∧
    (msg ≠ [] → msg ≠ okChars →
      (comm_step bid st msg).1.waiting_for_ack = st.waiting_for_ack ∧
      (comm_step bid st msg).2 = [dumps (.ackStatus bid)] ∧
      (∀ m, loads msg = some m →
        (comm_step bid st msg).1.message_queue = st.message_queue ++ [m]) ∧
      (loads msg = none →
        (comm_step bid st msg).1.message_queue = st.message_queue ∧
        (comm_step bid st msg).1.running = false)) := by
  have hstep : comm_step bid st okChars =
      ({ st with waiting_for_ack := false }, []) := by
    unfold comm_step
    rw [if_neg (by simp [hr]), if_neg (by decide), if_pos rfl]
  refine ⟨⟨by rw [hstep], by rw [hstep], by rw [hstep]⟩, ?_⟩
  intro h1 h2
  refine ⟨@comm_step_waiting bid st msg h2, ?_, ?_, ?_⟩
  · unfold comm_step
    rw [if_neg (by simp [hr]), if_pos ⟨h1, h2⟩]
    cases loads msg <;> rfl
  · intro m hm
    unfold comm_step
    rw [if_neg (by simp [hr]), if_pos ⟨h1, h2⟩, hm]
  · intro hm
    unfold comm_step
    rw [if_neg (by simp [hr]), if_pos ⟨h1, h2⟩, hm]
    exact ⟨rfl, rfl⟩

/-- C10 (witness): the amended theorem at worker w1 waiting for an ack:
the text OK clears the flag, and the stop command is enqueued. -/
theorem C10_witness :
    (comm_step ['w', '1'] ⟨true, true, []⟩ okChars).1.waiting_for_ack = false ∧
    (comm_step ['w', '1'] ⟨true, true, []⟩ stopWire).1.message_queue =
      [] ++ [ControlMessage.stopCmd] :=
  ⟨(C10_ok_sentinel ['w', '1'] ⟨true, true, []⟩ stopWire (by decide)).1.1,
   ((C10_ok_sentinel ['w', '1'] ⟨true, true, []⟩ stopWire (by decide)).2
       (by decide) (by decide)).2.2.1 ControlMessage.stopCmd (by decide)⟩

end DiscordBot
